import Mathlib

/-!
Verification of the ROLIE feed-compliance checker (`cmd/csaf_checker/roliecheck.go`).

The Go source is shallow-embedded:

* `csaf.TLPLabel` is a string type in the source; we model it as `String`,
  with the five label constants.
* The issue sinks (`badProviderMetadata`, `badROLIEfeed`, `badROLIEservice`)
  are side-effecting collaborators; a call to `info`/`warn`/`error` on a sink
  is modelled as a `Diag` value (sink, severity, format string, arguments)
  collected into a list, in emission order.
* Go's `map[K]struct{}` sets and `map[TLPLabel]map[string]struct{}` maps are
  modelled as duplicate-free association lists; only key membership is ever
  observed by the source.
* External collaborators (`url.Parse`, `url.URL.ResolveReference`,
  `util.BaseURL`, `processor.rolieFeedEntries`, `processor.integrity`, the
  HTTP client) are oracle functions packaged in an `Env`.  `integrity`
  drives `rolieLabelChecker.check` as a callback; its observable behaviour
  per feed is the list of `check` calls it makes, its own diagnostics, and
  its error result.
* Go errors are values; `errContinue` is the designated recoverable
  sentinel.  A nil-pointer dereference (panic) is modelled as `Option.none`
  (respectively `Outcome.panicked`).
* The per-feed `map[*csaf.Feed][]csaf.AdvisoryFile` keyed by feed pointer is
  modelled as an association list keyed by the (collection index, feed
  index) position of the feed; the two nested `for` loops of each phase are
  flattened into one pass over the position-indexed feed list in the same
  order.
-/

/-- `csaf.TLPLabel` is a string type. -/
abbrev TLPLabel := String

def TLPLabelUnlabeled : TLPLabel := "UNLABELED"
def TLPLabelWhite : TLPLabel := "WHITE"
def TLPLabelGreen : TLPLabel := "GREEN"
def TLPLabelAmber : TLPLabel := "AMBER"
def TLPLabelRed : TLPLabel := "RED"

/-- Severity of an emitted diagnostic (`info`, `warn`, `error` on a sink). -/
inductive Severity where
  | info
  | warn
  | error
deriving DecidableEq, Repr

/-- The three issue sinks used by this file of the source. -/
inductive Sink where
  | badProviderMetadata
  | badROLIEfeed
  | badROLIEservice
deriving DecidableEq, Repr

/-- One diagnostic emission: sink, severity, Go format string and the
arguments passed for its verbs (all arguments in this file are strings or
lists of strings; a list argument is spliced as several entries). -/
structure Diag where
  sink : Sink
  severity : Severity
  format : String
  args : List String
deriving DecidableEq, Repr

/-- Go error values as seen by this file: the designated recoverable
sentinel `errContinue`, or any other error (carrying its message). -/
inductive GoErr where
  | errContinue
  | other (msg : String)
deriving DecidableEq, Repr

/-- `tlpLevel` returns an inclusion order of TLP colors
(`roliecheck.go:29-42`). -/
def tlpLevel (label : TLPLabel) : Nat :=
  if label = TLPLabelWhite then 1
  else if label = TLPLabelGreen then 2
  else if label = TLPLabelAmber then 3
  else if label = TLPLabelRed then 4
  else 0

/-- `tlpLabel` returns the value of a non-nil pointer to a TLPLabel;
if the pointer is nil, unlabeled is returned (`roliecheck.go:46-51`). -/
def tlpLabel (label : Option TLPLabel) : TLPLabel :=
  match label with
  | some l => l
  | none => TLPLabelUnlabeled

/-- A `map[string]struct{}` set: duplicate-free list of keys. -/
def insertKey (l : List String) (x : String) : List String :=
  if x ∈ l then l else x :: l

/-- Read `m[label]` on a `map[TLPLabel]map[string]struct{}`: a missing key
reads as the empty (nil) set. -/
def getAdvs (m : List (TLPLabel × List String)) (label : TLPLabel) : List String :=
  match m with
  | [] => []
  | (k, v) :: rest => if k = label then v else getAdvs rest label

/-- `advs := ca.advisories[label]; if advs == nil { advs = make(...);
ca.advisories[label] = advs }; advs[advisory] = struct{}{}`
(`roliecheck.go:67-72`). -/
def addAdv (m : List (TLPLabel × List String)) (label : TLPLabel) (adv : String) :
    List (TLPLabel × List String) :=
  match m with
  | [] => [(label, [adv])]
  | (k, v) :: rest =>
    if k = label then (k, insertKey v adv) :: rest
    else (k, v) :: addAdv rest label adv

/-- `rolieLabelChecker` helps to check if advisories in ROLIE feeds are in
their right TLP color (`roliecheck.go:21-26`). -/
structure rolieLabelChecker where
  feedURL : String
  feedLabel : TLPLabel
  advisories : List (TLPLabel × List String)
deriving DecidableEq, Repr

/-- `check` tests if an advisory is in the right TLP color of the currently
tested feed (`roliecheck.go:55-95`).  Returns the updated checker and the
diagnostics emitted on `p.badROLIEfeed`. -/
def rolieLabelChecker.check (ca : rolieLabelChecker) (advisoryLabel : TLPLabel)
    (advisory : String) : rolieLabelChecker × List Diag :=
  let advisoryRank := tlpLevel advisoryLabel
  let feedRank := tlpLevel ca.feedLabel
  let ca' := { ca with advisories := addAdv ca.advisories advisoryLabel advisory }
  let diags :=
    if advisoryRank < feedRank then
      if advisoryRank = 0 then
        [⟨.badROLIEfeed, .info, "Found unlabeled advisory %q in feed %q.",
          [advisory, ca.feedURL]⟩]
      else
        [⟨.badROLIEfeed, .warn, "Found advisory %q labled TLP:%s in feed %q (TLP:%s).",
          [advisory, advisoryLabel, ca.feedURL, ca.feedLabel]⟩]
    else if advisoryRank > feedRank then
      [⟨.badROLIEfeed, .error, "%s of TLP level %s must not be listed in feed %s of TLP level %s",
        [advisory, advisoryLabel, ca.feedURL, ca.feedLabel]⟩]
    else []
  (ca', diags)

/-- `containsAllKeys` returns if `m2` contains all keys of `m1`
(`roliecheck.go:259-266`); sets are modelled by their key lists. -/
def containsAllKeys (m1 m2 : List String) : Bool :=
  m1.all (fun k => m2.contains k)

/-- `containsAllSS` checks if a slice of strings contains a string
(`roliecheck.go:351-358`). -/
def containsAllSS : List String → String → Bool
  | [], _ => false
  | e :: rest, str => if e = str then true else containsAllSS rest str

/-- `sameContentsSS` returns the two slices of all strings missing in the
respective other slice (`roliecheck.go:334-348`); the Go append loops are
order-preserving filters. -/
def sameContentsSS (slice1 slice2 : List String) : List String × List String :=
  (slice1.filter (fun e1 => !containsAllSS slice2 e1),
   slice2.filter (fun e2 => !containsAllSS slice1 e2))

/-- `csaf.Feed` as used by this file: `URL *csaf.JSONURL` and
`TLPLabel *csaf.TLPLabel` (nil pointers modelled by `none`). -/
structure Feed where
  url : Option String
  label : Option TLPLabel
deriving DecidableEq, Repr

/-- Diagnostics plus the `Except` result returned by
`processor.rolieFeedEntries`. -/
structure FetchResult where
  diags : List Diag
  result : Except GoErr (List String)

/-- Observable behaviour of one `processor.integrity` run over a feed's
files: the sequence of `p.labelChecker.check` calls it makes (actual label
and advisory URL, in order), its own diagnostics, and its error result. -/
structure IntegrityResult where
  classifyCalls : List (TLPLabel × String)
  diags : List Diag
  err : Option GoErr

/-- A loaded ROLIE service document, reduced to what `serviceCheck` reads:
`rolieService.Service.Workspace` is a list of workspaces, each carrying the
`HRef` strings of its `Collection` entries. -/
structure ROLIEServiceWorkspace where
  collection : List String
deriving DecidableEq, Repr

structure ROLIEServiceDocument where
  workspace : List ROLIEServiceWorkspace
deriving DecidableEq, Repr

/-- Result of `client.Get` on the service document URL followed by
`LoadROLIEServiceDocument` on its body. -/
inductive HTTPResult where
  | failed (err : String)
  | response (statusCode : Nat) (status : String)
      (body : Except String ROLIEServiceDocument)

/-- External collaborators (out of scope per the design: transport,
parsing, the generic integrity walker), packaged as oracle functions.
URLs are represented by strings; `parseURL` is `url.Parse` (the parsed URL
is identified with its string form, errors carry the message), `resolveRef
base u` is `base.ResolveReference(u)`, `baseURL` is `util.BaseURL`. -/
structure Env where
  parseURL : String → Except String String
  resolveRef : String → String → String
  baseURL : String → Except String String
  rolieFeedEntries : String → FetchResult
  integrity : List String → String → IntegrityResult
  getService : String → HTTPResult

/-- The diagnostic `p.badProviderMetadata.error("Invalid URL %s in feed:
%v.", *feed.URL, err)` (emitted at `roliecheck.go:118,150,200,223`; at
line 223 the source likewise prints `*feed.URL`, not the advisory URL). -/
def invalidURLDiag (s e : String) : Diag :=
  ⟨.badProviderMetadata, .error, "Invalid URL %s in feed: %v.", [s, e]⟩

/-- Fields of `processor` read or written by this file. -/
structure Processor where
  pmdURL : String
  labelChecker : Option rolieLabelChecker

/-- Outcome of a run: normal return value, error return (`return err`), or
a nil-pointer panic. -/
inductive Outcome (α : Type) where
  | ok (a : α)
  | fatal (e : GoErr)
  | panicked
deriving DecidableEq, Repr

/-- The two nested `for` loops of each phase, flattened: each feed paired
with its (collection index, index-in-collection) position, which stands in
for the feed's pointer identity. -/
def indexFeeds (feeds : List (List Feed)) : List ((Nat × Nat) × Feed) :=
  (feeds.enum.map (fun p => p.2.enum.map (fun q => ((p.1, q.1), q.2)))).flatten

/-- Lookup in the phase-1 result map `advisories : map[*csaf.Feed]
[]csaf.AdvisoryFile`, keyed by feed position. -/
def lookupKey (m : List ((Nat × Nat) × List String)) (k : Nat × Nat) :
    Option (List String) :=
  match m with
  | [] => none
  | (k', v) :: rest => if k' = k then some v else lookupKey rest k

/-- Phase 1 of `processROLIEFeeds` (`roliecheck.go:109-134`): load all
advisory URLs.  Per feed: a nil URL is skipped; a malformed URL emits a
provider-metadata error and is skipped; the URL is resolved against the
provider-metadata base and the feed entries are fetched (`p.checkTLS` is a
diagnostic-only probe on the transport collaborator and is not modelled);
a fetch failing with `errContinue` is skipped, any other fetch error is
returned at once.  Returns the emitted diagnostics and either the fatal
error or the result map. -/
def phase1 (env : Env) (base : String) :
    List ((Nat × Nat) × Feed) →
    List Diag × Except GoErr (List ((Nat × Nat) × List String))
  | [] => ([], .ok [])
  | (k, f) :: rest =>
    match f.url with
    | none => phase1 env base rest
    | some s =>
      match env.parseURL s with
      | .error e =>
        let (ds, r) := phase1 env base rest
        (invalidURLDiag s e :: ds, r)
      | .ok up =>
        let feedURL := env.resolveRef base up
        let fr := env.rolieFeedEntries feedURL
        match fr.result with
        | .error e =>
          if e = GoErr.errContinue then
            let (ds, r) := phase1 env base rest
            (fr.diags ++ ds, r)
          else (fr.diags, .error e)
        | .ok advs =>
          let (ds, r) := phase1 env base rest
          (fr.diags ++ ds, r.map (fun m => (k, advs) :: m))

/-- Fold the `check` calls the integrity walker makes through the current
label checker, accumulating the checker state and its diagnostics. -/
def applyChecks (lc : rolieLabelChecker) :
    List (TLPLabel × String) → rolieLabelChecker × List Diag
  | [] => (lc, [])
  | (lbl, adv) :: rest =>
    let (lc1, ds1) := rolieLabelChecker.check lc lbl adv
    let (lc2, ds2) := applyChecks lc1 rest
    (lc2, ds1 ++ ds2)

/-- Phase 2 of `processROLIEFeeds` (`roliecheck.go:136-175`): check for
integrity.  Per feed with a fetched listing: re-parse and resolve the URL,
compute the base path, install a fresh `rolieLabelChecker` in
`p.labelChecker`, and run the integrity walker (which drives
`p.labelChecker.check`); an integrity error other than `errContinue` is
returned at once.  The threaded `Option rolieLabelChecker` is
`p.labelChecker`. -/
def phase2 (env : Env) (base : String) (advMap : List ((Nat × Nat) × List String)) :
    List ((Nat × Nat) × Feed) → Option rolieLabelChecker →
    List Diag × Except GoErr (Option rolieLabelChecker)
  | [], lc => ([], .ok lc)
  | (k, f) :: rest, lc =>
    match f.url with
    | none => phase2 env base advMap rest lc
    | some s =>
      match lookupKey advMap k with
      | none => phase2 env base advMap rest lc
      | some files =>
        match env.parseURL s with
        | .error e =>
          let (ds, r) := phase2 env base advMap rest lc
          (invalidURLDiag s e :: ds, r)
        | .ok up =>
          let feedURL := env.resolveRef base up
          match env.baseURL feedURL with
          | .error e =>
            let (ds, r) := phase2 env base advMap rest lc
            (⟨.badProviderMetadata, .error, "Bad base path: %v", [e]⟩ :: ds, r)
          | .ok feedBase =>
            let label := tlpLabel f.label
            let checker : rolieLabelChecker := ⟨feedURL, label, []⟩
            let ir := env.integrity files feedBase
            let (checker', cds) := applyChecks checker ir.classifyCalls
            match ir.err with
            | some e =>
              if e = GoErr.errContinue then
                let (ds, r) := phase2 env base advMap rest (some checker')
                (ir.diags ++ cds ++ ds, r)
              else (ir.diags ++ cds, .error e)
            | none =>
              let (ds, r) := phase2 env base advMap rest (some checker')
              (ir.diags ++ cds ++ ds, r)

/-- `makeAbsolute` is repository code outside this file.  Modelled from the
spec: every compared URL "must first be resolved to an absolute form
against a single consistent base URL" — it resolves a URL against the
given base (resolving an already absolute URL against a base leaves it
unchanged). -/
def makeAbsolute (env : Env) (base u : String) : String :=
  env.resolveRef base u

/-- The inner loop of Phase 3 (`roliecheck.go:220-227`): the set of
absolute URLs of the advisories actually listed by the feed, as
`map[string]struct{}` keys, plus diagnostics for unparsable entries.
`s` is `*feed.URL` (used in the diagnostic, as in the source). -/
def buildCandidates (env : Env) (feedBase s : String) :
    List String → List String × List Diag
  | [] => ([], [])
  | adv :: rest =>
    let (c, ds) := buildCandidates env feedBase s rest
    match env.parseURL adv with
    | .error e => (c, invalidURLDiag s e :: ds)
    | .ok u => (insertKey c (makeAbsolute env feedBase u), ds)

/-- Insert a label into the key set of `hasSummary :
map[csaf.TLPLabel]struct{}`. -/
def insertLabel (l : List TLPLabel) (x : TLPLabel) : List TLPLabel :=
  if x ∈ l then l else x :: l

/-- Mutable state of the Phase-3 loop (`roliecheck.go:179-232`):
the three public-tier flags, `hasSummary`, and the diagnostics emitted so
far inside the loop. -/
structure Phase3State where
  hasUnlabeled : Bool
  hasWhite : Bool
  hasGreen : Bool
  hasSummary : List TLPLabel
  diags : List Diag
deriving DecidableEq, Repr

/-- The `switch label` of `roliecheck.go:208-215`: set the flag of the
matching public tier. -/
def updateFlags (st : Phase3State) (label : TLPLabel) : Phase3State :=
  if label = TLPLabelUnlabeled then { st with hasUnlabeled := true }
  else if label = TLPLabelWhite then { st with hasWhite := true }
  else if label = TLPLabelGreen then { st with hasGreen := true }
  else st

/-- One iteration of the Phase-3 loop (`roliecheck.go:187-232`).  `lc` is
`p.labelChecker`; reading `p.labelChecker.advisories` with a nil checker
is a nil-pointer panic, modelled as `none`. -/
def phase3Step (env : Env) (base : String) (lc : Option rolieLabelChecker)
    (advMap : List ((Nat × Nat) × List String)) (st : Phase3State)
    (k : Nat × Nat) (f : Feed) : Option Phase3State :=
  match f.url with
  | none => some st
  | some s =>
    match lookupKey advMap k with
    | none => some st
    | some files =>
      match env.parseURL s with
      | .error e => some { st with diags := st.diags ++ [invalidURLDiag s e] }
      | .ok up =>
        let feedBase := env.resolveRef base up
        let label := tlpLabel f.label
        let st1 := updateFlags st label
        match lc with
        | none => none
        | some lcv =>
          let reference := getAdvs lcv.advisories label
          let (cand, ds) := buildCandidates env feedBase s files
          let st2 := { st1 with diags := st1.diags ++ ds }
          if containsAllKeys reference cand then
            some { st2 with hasSummary := insertLabel st2.hasSummary label }
          else some st2

/-- The Phase-3 loop over all feeds. -/
def phase3Loop (env : Env) (base : String) (lc : Option rolieLabelChecker)
    (advMap : List ((Nat × Nat) × List String)) :
    List ((Nat × Nat) × Feed) → Phase3State → Option Phase3State
  | [], st => some st
  | (k, f) :: rest, st =>
    match phase3Step env base lc advMap st k f with
    | none => none
    | some st' => phase3Loop env base lc advMap rest st'

/-- The engine-level error of `roliecheck.go:234-238`. -/
def noPublicDiag : Diag :=
  ⟨.badROLIEfeed, .error,
   "One ROLIE feed with a TLP:WHITE, TLP:GREEN or unlabeled tlp must exist, but none were found.",
   []⟩

/-- The per-label completeness warning of `roliecheck.go:248-252`. -/
def summaryWarnDiag (label : TLPLabel) : Diag :=
  ⟨.badROLIEfeed, .warn,
   "ROLIE feed for TLP:%s has no accessible listed feed covering all advisories.",
   [label]⟩

/-- The five labels iterated by the final loop (`roliecheck.go:241-247`). -/
def fiveLabels : List TLPLabel :=
  [TLPLabelUnlabeled, TLPLabelWhite, TLPLabelGreen, TLPLabelAmber, TLPLabelRed]

/-- The final loop of Phase 3 (`roliecheck.go:240-253`): for each label not
in `hasSummary`, if the checker's recorded inventory for it is non-empty,
warn.  The `&&` short-circuits: `p.labelChecker.advisories` is only read
(and can only panic on a nil checker) when the label is not in
`hasSummary`. -/
def summaryWarnLoop (lc : Option rolieLabelChecker) (hasSummary : List TLPLabel) :
    List TLPLabel → Option (List Diag)
  | [] => some []
  | label :: rest =>
    if label ∈ hasSummary then summaryWarnLoop lc hasSummary rest
    else
      match lc with
      | none => none
      | some lcv =>
        let ds := if (getAdvs lcv.advisories label).length > 0
                  then [summaryWarnDiag label] else []
        (summaryWarnLoop lc hasSummary rest).map (fun ws => ds ++ ws)

/-- Phase 3 of `processROLIEFeeds` (`roliecheck.go:177-253`): the
completeness audit loop, the no-public-feed error, and the per-label
summary warnings.  Returns the final loop state and all diagnostics of the
phase in emission order, or `none` on a nil-checker panic. -/
def phase3 (env : Env) (base : String) (lc : Option rolieLabelChecker)
    (advMap : List ((Nat × Nat) × List String))
    (ifeeds : List ((Nat × Nat) × Feed)) : Option (Phase3State × List Diag) :=
  match phase3Loop env base lc advMap ifeeds ⟨false, false, false, [], []⟩ with
  | none => none
  | some st =>
    let errDs := if !st.hasWhite && !st.hasGreen && !st.hasUnlabeled
                 then [noPublicDiag] else []
    (summaryWarnLoop lc st.hasSummary fiveLabels).map
      (fun ws => (st, st.diags ++ errDs ++ ws))

/-- `processROLIEFeeds` (`roliecheck.go:99-256`): parse the
provider-metadata URL (a parse error is returned at once), then run the
three phases (`p.badROLIEfeed.use()` is sink bookkeeping, not modelled).
Returns all emitted diagnostics and the outcome. -/
def processROLIEFeeds (env : Env) (p : Processor) (feeds : List (List Feed)) :
    List Diag × Outcome Processor :=
  match env.parseURL p.pmdURL with
  | .error e => ([], .fatal (.other e))
  | .ok base =>
    let ifeeds := indexFeeds feeds
    let (ds1, r1) := phase1 env base ifeeds
    match r1 with
    | .error e => (ds1, .fatal e)
    | .ok advMap =>
      let (ds2, r2) := phase2 env base advMap ifeeds p.labelChecker
      match r2 with
      | .error e => (ds1 ++ ds2, .fatal e)
      | .ok lc =>
        match phase3 env base lc advMap ifeeds with
        | none => (ds1 ++ ds2, .panicked)
        | some (_, ds3) =>
          (ds1 ++ ds2 ++ ds3, .ok { p with labelChecker := lc })

/-- The flattening loop `roliecheck.go:313-317`: `ffeeds = append(ffeeds,
string(*s.URL))` dereferences each feed's URL pointer with no nil check;
a nil URL is a panic, modelled as `none`. -/
def derefURLs : List Feed → Option (List String)
  | [] => some []
  | s :: rest =>
    match s.url with
    | none => none
    | some u => (derefURLs rest).map (fun l => u :: l)

/-- All feed URLs of the provider metadata, in nested-loop order. -/
def flattenFeedURLs (feeds : List (List Feed)) : Option (List String) :=
  derefURLs feeds.flatten

/-- All `HRef` entries of the service document, in nested-loop order
(`roliecheck.go:308-312`). -/
def flattenServiceFeeds (doc : ROLIEServiceDocument) : List String :=
  (doc.workspace.map (fun w => w.collection)).flatten

/-- The comparison core of `serviceCheck` (`roliecheck.go:305-327`):
flatten both feed URL lists, diff them with `sameContentsSS`, and report
each non-empty side; `none` models the nil-URL panic. -/
def serviceCheckCompare (doc : ROLIEServiceDocument) (feeds : List (List Feed)) :
    Option (List Diag) :=
  let sfeeds := flattenServiceFeeds doc
  match flattenFeedURLs feeds with
  | none => none
  | some ffeeds =>
    let (m1, m2) := sameContentsSS sfeeds ffeeds
    some ((if m1.length ≠ 0 then
            [⟨.badROLIEservice, .error,
              "The ROLIE service document contains nonexistent feed entries: %v", m1⟩]
           else []) ++
          (if m2.length ≠ 0 then
            [⟨.badROLIEservice, .error,
              "The ROLIE service document is missing feed entries: %v", m2⟩]
           else []))

/-- `serviceCheck` (`roliecheck.go:268-330`): locate `service.json` next to
the provider metadata, fetch and load it (recoverable failures return
`errContinue` after a diagnostic), then reconcile it against the provider
metadata feeds.  `none` models the nil-URL panic in the flattening loop. -/
def serviceCheck (env : Env) (p : Processor) (feeds : List (List Feed)) :
    Option (List Diag × Except GoErr Unit) :=
  match env.parseURL p.pmdURL with
  | .error e => some ([], .error (.other e))
  | .ok pmdU =>
    match env.baseURL pmdU with
    | .error e => some ([], .error (.other e))
    | .ok b =>
      let urls := b ++ "service.json"
      match env.getService urls with
      | .failed e =>
        some ([⟨.badROLIEservice, .error,
               "Cannot fetch rolie service document %s: %v", [urls, e]⟩],
              .error .errContinue)
      | .response code status body =>
        if code ≠ 200 then
          some ([⟨.badROLIEservice, .warn,
                 "Fetching %s failed. Status code %d (%s)",
                 [urls, toString code, status]⟩],
                .error .errContinue)
        else
          match body with
          | .error e =>
            some ([⟨.badROLIEservice, .error,
                   "Loading ROLIE service document failed: %v.", [e]⟩],
                  .error .errContinue)
          | .ok doc =>
            (serviceCheckCompare doc feeds).map (fun ds => (ds, .ok ()))

/-- The declared label of a feed the Phase-3 loop actually processes past
its guards: `some` of its `tlpLabel` when the feed has a URL, is present in
the Phase-1 result map, and its URL parses; `none` when one of the guards
skips it. -/
def processedLabel (env : Env) (advMap : List ((Nat × Nat) × List String))
    (kf : (Nat × Nat) × Feed) : Option TLPLabel :=
  match kf.2.url with
  | none => none
  | some s =>
    match lookupKey advMap kf.1 with
    | none => none
    | some _ =>
      match env.parseURL s with
      | .error _ => none
      | .ok _ => some (tlpLabel kf.2.label)

/-- Number of occurrences of a diagnostic in an emission list. -/
def countDiag (ds : List Diag) (d : Diag) : Nat :=
  ds.countP (fun x => decide (x = d))

/-- A trivial collaborator environment for concrete runs: parsing succeeds
and returns the string itself, resolution returns the reference unchanged,
fetching yields an empty listing, the integrity walker does nothing, and
the service document is unreachable. -/
def wEnv : Env where
  parseURL := fun s => .ok s
  resolveRef := fun _ u => u
  baseURL := fun s => .ok s
  rolieFeedEntries := fun _ => ⟨[], .ok []⟩
  integrity := fun _ _ => ⟨[], [], none⟩
  getService := fun _ => .failed "unavailable"

/-- A concrete green feed, its checker, and singleton runs, used for
concrete evaluations. -/
def wFeed : Feed := ⟨some "feed.json", some TLPLabelGreen⟩

def wChecker : rolieLabelChecker := ⟨"feed.json", TLPLabelGreen, []⟩

def wAdvMap : List ((Nat × Nat) × List String) := [((0, 0), [])]

def wIfeeds : List ((Nat × Nat) × Feed) := [((0, 0), wFeed)]

/-- A collaborator environment whose feed fetcher always fails with the
recoverable `errContinue` sentinel, reporting nothing itself. -/
def cEnv : Env :=
  { wEnv with rolieFeedEntries := fun _ => ⟨[], .error .errContinue⟩ }

/-- A collaborator environment whose resolver prefixes the base, so the
relative "feed.json" resolves to "https://ex.com/feed.json". -/
def c3Env : Env := { wEnv with resolveRef := fun b u => b ++ u }

/-- A service document advertising the absolute form of the single feed of
`c3Feeds`, which the provider metadata lists in relative form. -/
def c3Doc : ROLIEServiceDocument := ⟨[⟨["https://ex.com/feed.json"]⟩]⟩

def c3Feeds : List (List Feed) := [[⟨some "feed.json", none⟩]]

/-! ### Helper lemmas -/

theorem containsAllSS_eq_decide (l : List String) (s : String) :
    containsAllSS l s = decide (s ∈ l) := by
  induction l with
  | nil => simp [containsAllSS]
  | cons e rest ih =>
    by_cases h : e = s
    · simp [containsAllSS, h]
    · simp [containsAllSS, h, ih, Ne.symm h]

theorem containsAllKeys_iff (m1 m2 : List String) :
    containsAllKeys m1 m2 = true ↔ ∀ k ∈ m1, k ∈ m2 := by
  simp [containsAllKeys, List.all_eq_true, List.elem_iff]

theorem mem_insertKey (l : List String) (x : String) : x ∈ insertKey l x := by
  by_cases h : x ∈ l <;> simp [insertKey, h]

theorem mem_getAdvs_addAdv (m : List (TLPLabel × List String))
    (label : TLPLabel) (adv : String) :
    adv ∈ getAdvs (addAdv m label adv) label := by
  induction m with
  | nil => simp [addAdv, getAdvs]
  | cons kv rest ih =>
    obtain ⟨k, v⟩ := kv
    by_cases h : k = label
    · simp [addAdv, getAdvs, h, mem_insertKey]
    · simp [addAdv, getAdvs, h, ih]

/-! ### Claims -/

/-- C9: `tlpLevel` is a pure total function, strictly increasing and
injective over the five labels in the order Unlabeled < White < Green <
Amber < Red, mapping them to 0 through 4; every unrecognized label maps to
0; `tlpLabel` maps an absent (nil) label to Unlabeled. -/
theorem C9_tlpLevel_rank_and_tlpLabel :
    (∀ l : TLPLabel, l ≠ TLPLabelWhite → l ≠ TLPLabelGreen →
      l ≠ TLPLabelAmber → l ≠ TLPLabelRed → tlpLevel l = 0) ∧
    tlpLevel TLPLabelUnlabeled = 0 ∧ tlpLevel TLPLabelWhite = 1 ∧
    tlpLevel TLPLabelGreen = 2 ∧ tlpLevel TLPLabelAmber = 3 ∧
    tlpLevel TLPLabelRed = 4 ∧
    tlpLevel TLPLabelUnlabeled < tlpLevel TLPLabelWhite ∧
    tlpLevel TLPLabelWhite < tlpLevel TLPLabelGreen ∧
    tlpLevel TLPLabelGreen < tlpLevel TLPLabelAmber ∧
    tlpLevel TLPLabelAmber < tlpLevel TLPLabelRed ∧
    (∀ a ∈ fiveLabels, ∀ b ∈ fiveLabels, tlpLevel a = tlpLevel b → a = b) ∧
    tlpLabel none = TLPLabelUnlabeled ∧
    (∀ l : TLPLabel, tlpLabel (some l) = l) := by
  refine ⟨?_, ?_, ?_, ?_, ?_, ?_, ?_, ?_, ?_, ?_, ?_, ?_, ?_⟩
  · intro l h1 h2 h3 h4
    simp [tlpLevel, h1, h2, h3, h4]
  all_goals first | decide | (intro l; rfl)

/-- Witness for C9: the unrecognized label "TLP:BLUE" ranks 0. -/
theorem C9_witness : tlpLevel "TLP:BLUE" = 0 :=
  C9_tlpLevel_rank_and_tlpLabel.1 "TLP:BLUE"
    (by decide) (by decide) (by decide) (by decide)

/-- C1: for every call to `rolieLabelChecker.check` with advisory label A
and feed label F: if rank(A) < rank(F), exactly one diagnostic is emitted,
with severity info if rank(A) = 0 and severity warning (naming both labels
and the feed URL) otherwise; if rank(A) > rank(F), exactly one error
diagnostic naming the advisory, its label, the feed URL and the feed's
label; if rank(A) = rank(F), no diagnostic. -/
theorem C1_check_diagnostics (ca : rolieLabelChecker) (advisoryLabel : TLPLabel)
    (advisory : String) :
    (tlpLevel advisoryLabel < tlpLevel ca.feedLabel → tlpLevel advisoryLabel = 0 →
      (ca.check advisoryLabel advisory).2 =
        [⟨.badROLIEfeed, .info, "Found unlabeled advisory %q in feed %q.",
          [advisory, ca.feedURL]⟩]) ∧
    (tlpLevel advisoryLabel < tlpLevel ca.feedLabel → tlpLevel advisoryLabel ≠ 0 →
      (ca.check advisoryLabel advisory).2 =
        [⟨.badROLIEfeed, .warn, "Found advisory %q labled TLP:%s in feed %q (TLP:%s).",
          [advisory, advisoryLabel, ca.feedURL, ca.feedLabel]⟩]) ∧
    (tlpLevel advisoryLabel > tlpLevel ca.feedLabel →
      (ca.check advisoryLabel advisory).2 =
        [⟨.badROLIEfeed, .error,
          "%s of TLP level %s must not be listed in feed %s of TLP level %s",
          [advisory, advisoryLabel, ca.feedURL, ca.feedLabel]⟩]) ∧
    (tlpLevel advisoryLabel = tlpLevel ca.feedLabel →
      (ca.check advisoryLabel advisory).2 = []) := by
  refine ⟨?_, ?_, ?_, ?_⟩
  · intro h h0
    have hf : tlpLevel ca.feedLabel ≠ 0 := by omega
    simp [rolieLabelChecker.check, h, h0, hf]
  · intro h h0
    simp [rolieLabelChecker.check, h, h0]
  · intro h
    have h' : ¬ tlpLevel advisoryLabel < tlpLevel ca.feedLabel := by omega
    simp [rolieLabelChecker.check, h, h']
  · intro h
    simp [rolieLabelChecker.check, h]

/-- Witness for C1: an unlabeled advisory in a green feed yields exactly
the info diagnostic. -/
theorem C1_witness :
    (rolieLabelChecker.check ⟨"https://ex.com/feed", TLPLabelGreen, []⟩
        TLPLabelUnlabeled "adv").2 =
      [⟨.badROLIEfeed, .info, "Found unlabeled advisory %q in feed %q.",
        ["adv", "https://ex.com/feed"]⟩] :=
  (C1_check_diagnostics ⟨"https://ex.com/feed", TLPLabelGreen, []⟩
    TLPLabelUnlabeled "adv").1 (by decide) (by decide)

/-- C7: every call to `rolieLabelChecker.check` records the advisory URL in
the set `advisories[advisoryLabel]` (creating the set if absent), on all
three comparison branches, independently of which diagnostic is emitted. -/
theorem C7_check_records (ca : rolieLabelChecker) (advisoryLabel : TLPLabel)
    (advisory : String) :
    advisory ∈ getAdvs ((ca.check advisoryLabel advisory).1.advisories) advisoryLabel := by
  simp only [rolieLabelChecker.check]
  exact mem_getAdvs_addAdv ca.advisories advisoryLabel advisory

/-- Counterexample for C4: `sameContentsSS` does not collapse duplicates.
On input (["a","a"], []) it returns (["a","a"], []): the first component
repeats "a", so the claimed duplicate collapsing fails. -/
theorem C4_counterexample :
    sameContentsSS ["a", "a"] [] = (["a", "a"], []) ∧
    ¬ (sameContentsSS ["a", "a"] []).1.Nodup := by
  refine ⟨by decide, ?_⟩
  decide

/-- C4 (amended): `sameContentsSS(A, B)` returns the pair (elements of A
absent from B, elements of B absent from A) under simple string equality,
each side preserving its input's order and duplicates (duplicates do NOT
collapse); membership in each output is order-independent (it depends only
on membership in the inputs); both inputs empty gives two empty sequences;
`sameContentsSS [a,b,c] [b,c,d] = ([a],[d])`; identical inputs yield
`([],[])`; disjoint inputs return all elements unaltered, each on its
respective side. -/
theorem C4_sameContentsSS_amended :
    (∀ (A B : List String) (x : String),
      (x ∈ (sameContentsSS A B).1 ↔ x ∈ A ∧ x ∉ B) ∧
      (x ∈ (sameContentsSS A B).2 ↔ x ∈ B ∧ x ∉ A)) ∧
    (∀ A B : List String,
      (sameContentsSS A B).1 = A.filter (fun e => !containsAllSS B e) ∧
      (sameContentsSS A B).2 = B.filter (fun e => !containsAllSS A e)) ∧
    sameContentsSS [] [] = ([], []) ∧
    (∀ A : List String, sameContentsSS A A = ([], [])) ∧
    (∀ A B : List String, (∀ x ∈ A, x ∉ B) → sameContentsSS A B = (A, B)) ∧
    sameContentsSS ["a", "b", "c"] ["b", "c", "d"] = (["a"], ["d"]) := by
  refine ⟨?_, ?_, by decide, ?_, ?_, by decide⟩
  · intro A B x
    constructor <;>
      simp [sameContentsSS, List.mem_filter, containsAllSS_eq_decide]
  · intro A B
    exact ⟨rfl, rfl⟩
  · intro A
    simp [sameContentsSS, List.filter_eq_nil_iff, containsAllSS_eq_decide]
  · intro A B h
    have h' : ∀ x ∈ B, x ∉ A := fun x hxB hxA => h x hxA hxB
    simp only [sameContentsSS, Prod.mk.injEq]
    constructor
    · rw [List.filter_eq_self]
      intro a ha
      simp [containsAllSS_eq_decide, h a ha]
    · rw [List.filter_eq_self]
      intro b hb
      simp [containsAllSS_eq_decide, h' b hb]

/-- Witness for C4 (amended): disjoint singleton inputs are returned
unaltered. -/
theorem C4_witness : sameContentsSS ["x"] ["y"] = (["x"], ["y"]) :=
  C4_sameContentsSS_amended.2.2.2.2.1 ["x"] ["y"] (by decide)

theorem updateFlags_hasSummary (st : Phase3State) (label : TLPLabel) :
    (updateFlags st label).hasSummary = st.hasSummary := by
  unfold updateFlags
  split_ifs <;> rfl

theorem updateFlags_diags (st : Phase3State) (label : TLPLabel) :
    (updateFlags st label).diags = st.diags := by
  unfold updateFlags
  split_ifs <;> rfl

theorem updateFlags_hasUnlabeled (st : Phase3State) (label : TLPLabel) :
    (updateFlags st label).hasUnlabeled =
      (st.hasUnlabeled || decide (label = TLPLabelUnlabeled)) := by
  unfold updateFlags
  split_ifs <;> simp_all <;> intro h <;> exact absurd h (by decide)

theorem updateFlags_hasWhite (st : Phase3State) (label : TLPLabel) :
    (updateFlags st label).hasWhite =
      (st.hasWhite || decide (label = TLPLabelWhite)) := by
  unfold updateFlags
  split_ifs <;> simp_all <;> intro h <;> exact absurd h (by decide)

theorem updateFlags_hasGreen (st : Phase3State) (label : TLPLabel) :
    (updateFlags st label).hasGreen =
      (st.hasGreen || decide (label = TLPLabelGreen)) := by
  unfold updateFlags
  split_ifs <;> simp_all <;> intro h <;> exact absurd h (by decide)

theorem mem_insertKey_iff (l : List String) (x y : String) :
    x ∈ insertKey l y ↔ x = y ∨ x ∈ l := by
  by_cases h : y ∈ l
  · simp only [insertKey, if_pos h]
    constructor
    · exact Or.inr
    · rintro (rfl | hx)
      · exact h
      · exact hx
  · simp [insertKey, h]

theorem mem_insertLabel_iff (l : List TLPLabel) (x y : TLPLabel) :
    x ∈ insertLabel l y ↔ x = y ∨ x ∈ l := by
  by_cases h : y ∈ l
  · simp only [insertLabel, if_pos h]
    constructor
    · exact Or.inr
    · rintro (rfl | hx)
      · exact h
      · exact hx
  · simp [insertLabel, h]

theorem countDiag_append (a b : List Diag) (d : Diag) :
    countDiag (a ++ b) d = countDiag a d + countDiag b d :=
  List.countP_append ..

theorem countDiag_eq_zero {ds : List Diag} {d : Diag} (h : ∀ x ∈ ds, x ≠ d) :
    countDiag ds d = 0 := by
  rw [countDiag, List.countP_eq_zero]
  intro a ha
  simpa using h a ha

theorem mem_buildCandidates (env : Env) (feedBase s : String) (files : List String)
    (x : String) :
    x ∈ (buildCandidates env feedBase s files).1 ↔
      ∃ adv ∈ files, ∃ u, env.parseURL adv = .ok u ∧
        makeAbsolute env feedBase u = x := by
  induction files with
  | nil => simp [buildCandidates]
  | cons adv rest ih =>
    rcases hbc : buildCandidates env feedBase s rest with ⟨c, ds⟩
    rw [hbc] at ih
    cases hp : env.parseURL adv with
    | error e =>
      simp only [buildCandidates, hbc, hp, List.mem_cons]
      rw [ih]
      constructor
      · rintro ⟨a, ha, u, hu, hx⟩
        exact ⟨a, Or.inr ha, u, hu, hx⟩
      · rintro ⟨a, (rfl | ha), u, hu, hx⟩
        · rw [hp] at hu
          cases hu
        · exact ⟨a, ha, u, hu, hx⟩
    | ok u =>
      simp only [buildCandidates, hbc, hp, mem_insertKey_iff, List.mem_cons]
      rw [ih]
      constructor
      · rintro (rfl | ⟨a, ha, u', hu', hx⟩)
        · exact ⟨adv, Or.inl rfl, u, hp, rfl⟩
        · exact ⟨a, Or.inr ha, u', hu', hx⟩
      · rintro ⟨a, (rfl | ha), u', hu', hx⟩
        · rw [hp] at hu'
          cases hu'
          exact Or.inl hx.symm
        · exact Or.inr ⟨a, ha, u', hu', hx⟩

theorem buildCandidates_diags_format (env : Env) (feedBase s : String)
    (files : List String) :
    ∀ d ∈ (buildCandidates env feedBase s files).2,
      d.format = "Invalid URL %s in feed: %v." := by
  induction files with
  | nil => simp [buildCandidates]
  | cons adv rest ih =>
    rcases hbc : buildCandidates env feedBase s rest with ⟨c, ds⟩
    rw [hbc] at ih
    cases hp : env.parseURL adv with
    | error e =>
      simp only [buildCandidates, hbc, hp, List.mem_cons]
      rintro d (rfl | hd)
      · rfl
      · exact ih d hd
    | ok u =>
      simp only [buildCandidates, hbc, hp]
      exact ih

theorem phase3Step_spec (env : Env) (base : String) (lcv : rolieLabelChecker)
    (advMap : List ((Nat × Nat) × List String)) (st : Phase3State)
    (k : Nat × Nat) (f : Feed) :
    ∃ st', phase3Step env base (some lcv) advMap st k f = some st' ∧
      st'.hasUnlabeled = (st.hasUnlabeled ||
        decide (processedLabel env advMap (k, f) = some TLPLabelUnlabeled)) ∧
      st'.hasWhite = (st.hasWhite ||
        decide (processedLabel env advMap (k, f) = some TLPLabelWhite)) ∧
      st'.hasGreen = (st.hasGreen ||
        decide (processedLabel env advMap (k, f) = some TLPLabelGreen)) ∧
      (∀ d ∈ st'.diags, d ∈ st.diags ∨ d.format = "Invalid URL %s in feed: %v.") := by
  cases hu : f.url with
  | none =>
    refine ⟨st, by simp [phase3Step, hu], ?_, ?_, ?_, fun d hd => Or.inl hd⟩ <;>
      simp [processedLabel, hu]
  | some s =>
    cases hl : lookupKey advMap k with
    | none =>
      refine ⟨st, by simp [phase3Step, hu, hl], ?_, ?_, ?_, fun d hd => Or.inl hd⟩ <;>
        simp [processedLabel, hu, hl]
    | some files =>
      cases hp : env.parseURL s with
      | error e =>
        refine ⟨{ st with diags := st.diags ++ [invalidURLDiag s e] },
          by simp [phase3Step, hu, hl, hp], ?_, ?_, ?_, ?_⟩
        · simp [processedLabel, hu, hl, hp]
        · simp [processedLabel, hu, hl, hp]
        · simp [processedLabel, hu, hl, hp]
        · intro d hd
          simp only [List.mem_append, List.mem_singleton] at hd
          rcases hd with hd | rfl
          · exact Or.inl hd
          · exact Or.inr rfl
      | ok up =>
        rcases hbc : buildCandidates env (env.resolveRef base up) s files with ⟨cand, ds⟩
        have hpl : processedLabel env advMap (k, f) = some (tlpLabel f.label) := by
          simp [processedLabel, hu, hl, hp]
        have hds : ∀ d ∈ ds, d.format = "Invalid URL %s in feed: %v." := by
          have := buildCandidates_diags_format env (env.resolveRef base up) s files
          rw [hbc] at this
          exact this
        by_cases hc : containsAllKeys (getAdvs lcv.advisories (tlpLabel f.label)) cand = true
        · refine ⟨{ updateFlags st (tlpLabel f.label) with
              diags := (updateFlags st (tlpLabel f.label)).diags ++ ds,
              hasSummary := insertLabel
                (updateFlags st (tlpLabel f.label)).hasSummary (tlpLabel f.label) },
            by simp [phase3Step, hu, hl, hp, hbc, hc], ?_, ?_, ?_, ?_⟩
          · simp [hpl, updateFlags_hasUnlabeled]
          · simp [hpl, updateFlags_hasWhite]
          · simp [hpl, updateFlags_hasGreen]
          · intro d hd
            simp only [updateFlags_diags, List.mem_append] at hd
            rcases hd with hd | hd
            · exact Or.inl hd
            · exact Or.inr (hds d hd)
        · refine ⟨{ updateFlags st (tlpLabel f.label) with
              diags := (updateFlags st (tlpLabel f.label)).diags ++ ds },
            by simp [phase3Step, hu, hl, hp, hbc, hc], ?_, ?_, ?_, ?_⟩
          · simp [hpl, updateFlags_hasUnlabeled]
          · simp [hpl, updateFlags_hasWhite]
          · simp [hpl, updateFlags_hasGreen]
          · intro d hd
            simp only [updateFlags_diags, List.mem_append] at hd
            rcases hd with hd | hd
            · exact Or.inl hd
            · exact Or.inr (hds d hd)

theorem phase3Loop_spec (env : Env) (base : String) (lcv : rolieLabelChecker)
    (advMap : List ((Nat × Nat) × List String)) (l : List ((Nat × Nat) × Feed)) :
    ∀ st : Phase3State, ∃ st',
      phase3Loop env base (some lcv) advMap l st = some st' ∧
      st'.hasUnlabeled = (st.hasUnlabeled || l.any (fun kf =>
        decide (processedLabel env advMap kf = some TLPLabelUnlabeled))) ∧
      st'.hasWhite = (st.hasWhite || l.any (fun kf =>
        decide (processedLabel env advMap kf = some TLPLabelWhite))) ∧
      st'.hasGreen = (st.hasGreen || l.any (fun kf =>
        decide (processedLabel env advMap kf = some TLPLabelGreen))) ∧
      (∀ d ∈ st'.diags, d ∈ st.diags ∨ d.format = "Invalid URL %s in feed: %v.") := by
  induction l with
  | nil =>
    intro st
    exact ⟨st, rfl, by simp, by simp, by simp, fun d hd => Or.inl hd⟩
  | cons kf rest ih =>
    rcases kf with ⟨k, f⟩
    intro st
    obtain ⟨st1, hstep, hU, hW, hG, hD⟩ := phase3Step_spec env base lcv advMap st k f
    obtain ⟨st', hloop, hU', hW', hG', hD'⟩ := ih st1
    refine ⟨st', ?_, ?_, ?_, ?_, ?_⟩
    · simp [phase3Loop, hstep, hloop]
    · rw [hU', hU, List.any_cons, Bool.or_assoc]
    · rw [hW', hW, List.any_cons, Bool.or_assoc]
    · rw [hG', hG, List.any_cons, Bool.or_assoc]
    · intro d hd
      rcases hD' d hd with hd1 | hf
      · exact hD d hd1
      · exact Or.inr hf

theorem summaryWarnLoop_spec (lcv : rolieLabelChecker) (hasSummary : List TLPLabel) :
    ∀ labels : List TLPLabel, ∃ ws,
      summaryWarnLoop (some lcv) hasSummary labels = some ws ∧
      ∀ d : Diag, d ∈ ws ↔ ∃ label ∈ labels, d = summaryWarnDiag label ∧
        label ∉ hasSummary ∧ (getAdvs lcv.advisories label).length > 0 := by
  intro labels
  induction labels with
  | nil => exact ⟨[], rfl, by simp⟩
  | cons label rest ih =>
    obtain ⟨ws, hws, hmem⟩ := ih
    by_cases h : label ∈ hasSummary
    · refine ⟨ws, by simp [summaryWarnLoop, h, hws], ?_⟩
      intro d
      rw [hmem d]
      constructor
      · rintro ⟨l, hl, hrest⟩
        exact ⟨l, List.mem_cons_of_mem _ hl, hrest⟩
      · rintro ⟨l, hl, hd, hns, hlen⟩
        rcases List.mem_cons.mp hl with rfl | hl'
        · exact absurd h hns
        · exact ⟨l, hl', hd, hns, hlen⟩
    · by_cases hlen : (getAdvs lcv.advisories label).length > 0
      · refine ⟨summaryWarnDiag label :: ws, by simp [summaryWarnLoop, h, hws, hlen], ?_⟩
        intro d
        constructor
        · intro hd
          rcases List.mem_cons.mp hd with rfl | hd'
          · exact ⟨label, List.mem_cons_self _ _, rfl, h, hlen⟩
          · obtain ⟨l, hl, h1, h2, h3⟩ := (hmem d).mp hd'
            exact ⟨l, List.mem_cons_of_mem _ hl, h1, h2, h3⟩
        · rintro ⟨l, hl, rfl, hns, hlen'⟩
          rcases List.mem_cons.mp hl with rfl | hl'
          · exact List.mem_cons_self _ _
          · exact List.mem_cons_of_mem _ ((hmem _).mpr ⟨l, hl', rfl, hns, hlen'⟩)
      · refine ⟨ws, by simp [summaryWarnLoop, h, hws, hlen], ?_⟩
        intro d
        rw [hmem d]
        constructor
        · rintro ⟨l, hl, hrest⟩
          exact ⟨l, List.mem_cons_of_mem _ hl, hrest⟩
        · rintro ⟨l, hl, rfl, hns, hlen'⟩
          rcases List.mem_cons.mp hl with rfl | hl'
          · exact absurd hlen' hlen
          · exact ⟨l, hl', rfl, hns, hlen'⟩

theorem phase3_spec (env : Env) (base : String) (lcv : rolieLabelChecker)
    (advMap : List ((Nat × Nat) × List String)) (ifeeds : List ((Nat × Nat) × Feed))
    (st : Phase3State) (ds : List Diag)
    (h : phase3 env base (some lcv) advMap ifeeds = some (st, ds)) :
    (∃ ws, ds = st.diags ++
        (if !st.hasWhite && !st.hasGreen && !st.hasUnlabeled
         then [noPublicDiag] else []) ++ ws ∧
      (∀ d : Diag, d ∈ ws ↔ ∃ label ∈ fiveLabels, d = summaryWarnDiag label ∧
        label ∉ st.hasSummary ∧ (getAdvs lcv.advisories label).length > 0)) ∧
    st.hasUnlabeled = ifeeds.any (fun kf =>
      decide (processedLabel env advMap kf = some TLPLabelUnlabeled)) ∧
    st.hasWhite = ifeeds.any (fun kf =>
      decide (processedLabel env advMap kf = some TLPLabelWhite)) ∧
    st.hasGreen = ifeeds.any (fun kf =>
      decide (processedLabel env advMap kf = some TLPLabelGreen)) ∧
    (∀ d ∈ st.diags, d.format = "Invalid URL %s in feed: %v.") := by
  obtain ⟨stL, hloop, hU, hW, hG, hD⟩ :=
    phase3Loop_spec env base lcv advMap ifeeds ⟨false, false, false, [], []⟩
  obtain ⟨ws, hws, hmem⟩ := summaryWarnLoop_spec lcv stL.hasSummary fiveLabels
  rw [phase3, hloop] at h
  simp only [hws, Option.map_some] at h
  rcases h with ⟨rfl, rfl⟩
  refine ⟨⟨ws, rfl, hmem⟩, by simpa using hU, by simpa using hW, by simpa using hG, ?_⟩
  intro d hd
  rcases hD d hd with hd0 | hf
  · simp at hd0
  · exact hf

theorem countDiag_singleton (d : Diag) : countDiag [d] d = 1 := by
  simp [countDiag, List.countP_cons]

theorem summaryWarnDiag_ne_noPublicDiag (label : TLPLabel) :
    summaryWarnDiag label ≠ noPublicDiag := fun he => by
  have h2 := congrArg Diag.severity he
  simp [summaryWarnDiag, noPublicDiag] at h2

theorem summaryWarnDiag_format (label : TLPLabel) :
    (summaryWarnDiag label).format =
      "ROLIE feed for TLP:%s has no accessible listed feed covering all advisories." :=
  rfl

/-- C2: in the Phase-3 loop body, a feed present in the Phase-1 result set
is recorded as satisfying the summary obligation for its declared label
exactly when the set of absolute URLs of its locally listed advisories
contains every URL of the reference inventory recorded under that label;
in particular a strict subset of the reference inventory is not marked
satisfied while an equal or superset listing is. -/
theorem C2_completeness_summary_marking
    (env : Env) (base : String) (lcv : rolieLabelChecker)
    (advMap : List ((Nat × Nat) × List String)) (st st' : Phase3State)
    (k : Nat × Nat) (f : Feed) (s up : String) (files : List String)
    (hurl : f.url = some s)
    (hfiles : lookupKey advMap k = some files)
    (hparse : env.parseURL s = .ok up)
    (hnot : tlpLabel f.label ∉ st.hasSummary)
    (hstep : phase3Step env base (some lcv) advMap st k f = some st') :
    (tlpLabel f.label ∈ st'.hasSummary ↔
      ∀ r ∈ getAdvs lcv.advisories (tlpLabel f.label),
        r ∈ (buildCandidates env (env.resolveRef base up) s files).1) := by
  rcases hbc : buildCandidates env (env.resolveRef base up) s files with ⟨cand, ds⟩
  simp only [phase3Step, hurl, hfiles, hparse, hbc] at hstep
  by_cases hc : containsAllKeys (getAdvs lcv.advisories (tlpLabel f.label)) cand = true
  · rw [if_pos hc] at hstep
    simp only [Option.some.injEq] at hstep
    subst hstep
    refine iff_of_true ((mem_insertLabel_iff _ _ _).mpr (Or.inl rfl)) ?_
    intro r hr
    have := (containsAllKeys_iff _ _).mp hc r hr
    simpa [hbc] using this
  · rw [if_neg hc] at hstep
    simp only [Option.some.injEq] at hstep
    subst hstep
    refine iff_of_false ?_ ?_
    · simpa [updateFlags_hasSummary] using hnot
    · intro hall
      refine hc ((containsAllKeys_iff _ _).mpr ?_)
      intro r hr
      have := hall r hr
      simpa [hbc] using this

/-- Witness for C2: a green feed with an empty local listing and an empty
reference inventory is marked as satisfying the summary obligation. -/
theorem C2_witness :
    (tlpLabel wFeed.label ∈ [TLPLabelGreen] ↔
      ∀ r ∈ getAdvs wChecker.advisories (tlpLabel wFeed.label),
        r ∈ (buildCandidates wEnv (wEnv.resolveRef "base" "feed.json")
              "feed.json" []).1) :=
  C2_completeness_summary_marking wEnv "base" wChecker wAdvMap
    ⟨false, false, false, [], []⟩ ⟨false, false, true, [TLPLabelGreen], []⟩
    (0, 0) wFeed "feed.json" "feed.json" [] rfl rfl rfl (by decide) rfl

/-- C5: after the Phase-3 loop, the engine-level error that at least one
publicly accessible feed must exist is emitted exactly once iff no
processed feed carried the label Unlabeled, White or Green, and not at all
otherwise, regardless of how many Amber or Red feeds exist. -/
theorem C5_no_public_tier_error (env : Env) (base : String)
    (lcv : rolieLabelChecker) (advMap : List ((Nat × Nat) × List String))
    (ifeeds : List ((Nat × Nat) × Feed)) (st : Phase3State) (ds : List Diag)
    (h : phase3 env base (some lcv) advMap ifeeds = some (st, ds)) :
    countDiag ds noPublicDiag =
      if ∃ kf ∈ ifeeds,
          processedLabel env advMap kf = some TLPLabelUnlabeled ∨
          processedLabel env advMap kf = some TLPLabelWhite ∨
          processedLabel env advMap kf = some TLPLabelGreen
      then 0 else 1 := by
  obtain ⟨⟨ws, rfl, hmem⟩, hU, hW, hG, hfmt⟩ :=
    phase3_spec env base lcv advMap ifeeds st ds h
  have h1 : countDiag st.diags noPublicDiag = 0 := by
    refine countDiag_eq_zero fun d hd he => ?_
    subst he
    exact absurd (hfmt _ hd) (by decide)
  have h2 : countDiag ws noPublicDiag = 0 := by
    refine countDiag_eq_zero fun d hd he => ?_
    obtain ⟨l, _, rfl, _, _⟩ := (hmem d).mp hd
    exact summaryWarnDiag_ne_noPublicDiag l he
  have hcond : (!st.hasWhite && !st.hasGreen && !st.hasUnlabeled) = true ↔
      ¬ ∃ kf ∈ ifeeds,
          processedLabel env advMap kf = some TLPLabelUnlabeled ∨
          processedLabel env advMap kf = some TLPLabelWhite ∨
          processedLabel env advMap kf = some TLPLabelGreen := by
    simp only [hU, hW, hG, Bool.and_eq_true, Bool.not_eq_true',
      List.any_eq_false, decide_eq_true_eq, not_exists, not_and, not_or]
    constructor
    · rintro ⟨⟨hw, hg⟩, hu⟩ kf hkf
      exact ⟨hu kf hkf, hw kf hkf, hg kf hkf⟩
    · intro hall
      exact ⟨⟨fun kf hkf => (hall kf hkf).2.1, fun kf hkf => (hall kf hkf).2.2⟩,
             fun kf hkf => (hall kf hkf).1⟩
  rw [countDiag_append, countDiag_append, h1, h2]
  by_cases hP : ∃ kf ∈ ifeeds,
      processedLabel env advMap kf = some TLPLabelUnlabeled ∨
      processedLabel env advMap kf = some TLPLabelWhite ∨
      processedLabel env advMap kf = some TLPLabelGreen
  · rw [if_pos hP]
    have hcf : (!st.hasWhite && !st.hasGreen && !st.hasUnlabeled) = false := by
      rcases hb : (!st.hasWhite && !st.hasGreen && !st.hasUnlabeled) with _ | _
      · rfl
      · exact absurd hP (hcond.mp hb)
    simp [hcf, countDiag]
  · rw [if_neg hP]
    have hct := hcond.mpr hP
    simp [hct, countDiag_singleton]

/-- Witness for C5: a run over one processed green feed emits the
no-public-feed error zero times. -/
theorem C5_witness :
    countDiag [] noPublicDiag =
      if ∃ kf ∈ wIfeeds,
          processedLabel wEnv wAdvMap kf = some TLPLabelUnlabeled ∨
          processedLabel wEnv wAdvMap kf = some TLPLabelWhite ∨
          processedLabel wEnv wAdvMap kf = some TLPLabelGreen
      then 0 else 1 :=
  C5_no_public_tier_error wEnv "base" wChecker wAdvMap wIfeeds
    ⟨false, false, true, [TLPLabelGreen], []⟩ [] rfl

/-- C6: after the Phase-3 loop, for each of the five labels, the warning
that the tier lacks a feed listing all of its advisories is emitted iff
the recorded inventory for that label is non-empty and no feed was
recorded as satisfying the summary obligation for it. -/
theorem C6_tier_completeness_warning (env : Env) (base : String)
    (lcv : rolieLabelChecker) (advMap : List ((Nat × Nat) × List String))
    (ifeeds : List ((Nat × Nat) × Feed)) (st : Phase3State) (ds : List Diag)
    (label : TLPLabel) (hfive : label ∈ fiveLabels)
    (h : phase3 env base (some lcv) advMap ifeeds = some (st, ds)) :
    (summaryWarnDiag label ∈ ds ↔
      label ∉ st.hasSummary ∧ getAdvs lcv.advisories label ≠ []) := by
  obtain ⟨⟨ws, rfl, hmem⟩, _, _, _, hfmt⟩ :=
    phase3_spec env base lcv advMap ifeeds st ds h
  constructor
  · intro hd
    rcases List.mem_append.mp hd with hd' | hdws
    · rcases List.mem_append.mp hd' with hds | herr
      · have h3 := hfmt _ hds
        rw [summaryWarnDiag_format] at h3
        exact absurd h3 (by decide)
      · have hnp : summaryWarnDiag label ∉
            (if !st.hasWhite && !st.hasGreen && !st.hasUnlabeled
             then [noPublicDiag] else ([] : List Diag)) := by
          split
          · simp [summaryWarnDiag_ne_noPublicDiag label]
          · simp
        exact absurd herr hnp
    · obtain ⟨l, _, heq, hns, hlen⟩ := (hmem _).mp hdws
      have hll : label = l := by
        have := congrArg Diag.args heq
        simpa [summaryWarnDiag] using this
      subst hll
      exact ⟨hns, List.length_pos.mp hlen⟩
  · rintro ⟨hns, hne⟩
    exact List.mem_append.mpr (Or.inr ((hmem _).mpr
      ⟨label, hfive, rfl, hns, List.length_pos.mpr hne⟩))

/-- Witness for C6: in a run with an empty recorded inventory, no
completeness warning is emitted for the Unlabeled tier. -/
theorem C6_witness :
    (summaryWarnDiag TLPLabelUnlabeled ∈ ([] : List Diag) ↔
      TLPLabelUnlabeled ∉ [TLPLabelGreen] ∧
      getAdvs wChecker.advisories TLPLabelUnlabeled ≠ []) :=
  C6_tier_completeness_warning wEnv "base" wChecker wAdvMap wIfeeds
    ⟨false, false, true, [TLPLabelGreen], []⟩ [] TLPLabelUnlabeled
    (by decide) rfl

theorem derefURLs_eq_none {l : List Feed} (h : ∃ f ∈ l, f.url = none) :
    derefURLs l = none := by
  induction l with
  | nil => simp at h
  | cons s rest ih =>
    obtain ⟨f, hf, hn⟩ := h
    rcases List.mem_cons.mp hf with rfl | hf'
    · simp [derefURLs, hn]
    · cases hs : s.url with
      | none => simp [derefURLs, hs]
      | some u => simp [derefURLs, hs, ih ⟨f, hf', hn⟩]

theorem serviceCheckCompare_eq_none (doc : ROLIEServiceDocument)
    (feeds : List (List Feed)) (h : ∃ f ∈ feeds.flatten, f.url = none) :
    serviceCheckCompare doc feeds = none := by
  simp [serviceCheckCompare, flattenFeedURLs, derefURLs_eq_none h]

/-- Counterexample for C8: a feed whose fetch fails with the `errContinue`
sentinel is skipped without `processROLIEFeeds` emitting any diagnostic:
Phase 1 over one such feed returns no diagnostics and an empty result map
(the collaborator here reports nothing itself), contradicting the claim
that every recoverable per-feed failure emits a diagnostic. -/
theorem C8_counterexample :
    (cEnv.rolieFeedEntries "feed.json").result = .error .errContinue ∧
    (cEnv.rolieFeedEntries "feed.json").diags = [] ∧
    phase1 cEnv "base" [((0, 0), wFeed)] = ([], .ok []) :=
  ⟨rfl, rfl, rfl⟩

/-- C8 (amended): in `processROLIEFeeds`, a malformed feed URL emits an
invalid-URL diagnostic and skips only that feed; a collaborator error
equal to the continue sentinel (from `rolieFeedEntries` or `integrity`)
skips only that feed with the enclosing loop continuing over the remaining
feeds, but `processROLIEFeeds` itself emits no diagnostic for it (any
diagnostic is the collaborator's own); any collaborator error other than
the sentinel propagates immediately as the function's return value and
aborts the whole run. -/
theorem C8_error_propagation :
    (∀ (env : Env) (base : String) (k : Nat × Nat) (f : Feed) (s e : String)
        (rest : List ((Nat × Nat) × Feed)),
      f.url = some s → env.parseURL s = .error e →
      phase1 env base ((k, f) :: rest) =
        (invalidURLDiag s e :: (phase1 env base rest).1,
         (phase1 env base rest).2)) ∧
    (∀ (env : Env) (base : String) (k : Nat × Nat) (f : Feed) (s up : String)
        (rest : List ((Nat × Nat) × Feed)),
      f.url = some s → env.parseURL s = .ok up →
      (env.rolieFeedEntries (env.resolveRef base up)).result =
        .error .errContinue →
      phase1 env base ((k, f) :: rest) =
        ((env.rolieFeedEntries (env.resolveRef base up)).diags ++
           (phase1 env base rest).1,
         (phase1 env base rest).2)) ∧
    (∀ (env : Env) (base : String) (k : Nat × Nat) (f : Feed) (s up : String)
        (e : GoErr) (rest : List ((Nat × Nat) × Feed)),
      f.url = some s → env.parseURL s = .ok up →
      (env.rolieFeedEntries (env.resolveRef base up)).result = .error e →
      e ≠ .errContinue →
      phase1 env base ((k, f) :: rest) =
        ((env.rolieFeedEntries (env.resolveRef base up)).diags, .error e)) ∧
    (∀ (env : Env) (base : String) (advMap : List ((Nat × Nat) × List String))
        (k : Nat × Nat) (f : Feed) (s up fb : String) (files : List String)
        (rest : List ((Nat × Nat) × Feed)) (lc : Option rolieLabelChecker),
      f.url = some s → lookupKey advMap k = some files →
      env.parseURL s = .ok up →
      env.baseURL (env.resolveRef base up) = .ok fb →
      (env.integrity files fb).err = some .errContinue →
      phase2 env base advMap ((k, f) :: rest) lc =
        ((env.integrity files fb).diags ++
           (applyChecks ⟨env.resolveRef base up, tlpLabel f.label, []⟩
             (env.integrity files fb).classifyCalls).2 ++
           (phase2 env base advMap rest
             (some (applyChecks ⟨env.resolveRef base up, tlpLabel f.label, []⟩
               (env.integrity files fb).classifyCalls).1)).1,
         (phase2 env base advMap rest
           (some (applyChecks ⟨env.resolveRef base up, tlpLabel f.label, []⟩
             (env.integrity files fb).classifyCalls).1)).2)) ∧
    (∀ (env : Env) (base : String) (advMap : List ((Nat × Nat) × List String))
        (k : Nat × Nat) (f : Feed) (s up fb : String) (files : List String)
        (e : GoErr) (rest : List ((Nat × Nat) × Feed))
        (lc : Option rolieLabelChecker),
      f.url = some s → lookupKey advMap k = some files →
      env.parseURL s = .ok up →
      env.baseURL (env.resolveRef base up) = .ok fb →
      (env.integrity files fb).err = some e → e ≠ .errContinue →
      phase2 env base advMap ((k, f) :: rest) lc =
        ((env.integrity files fb).diags ++
           (applyChecks ⟨env.resolveRef base up, tlpLabel f.label, []⟩
             (env.integrity files fb).classifyCalls).2,
         .error e)) ∧
    (∀ (env : Env) (p : Processor) (feeds : List (List Feed)) (base : String)
        (e : GoErr),
      env.parseURL p.pmdURL = .ok base →
      (phase1 env base (indexFeeds feeds)).2 = .error e →
      processROLIEFeeds env p feeds =
        ((phase1 env base (indexFeeds feeds)).1, .fatal e)) ∧
    (∀ (env : Env) (p : Processor) (feeds : List (List Feed)) (base : String)
        (advMap : List ((Nat × Nat) × List String)) (e : GoErr),
      env.parseURL p.pmdURL = .ok base →
      (phase1 env base (indexFeeds feeds)).2 = .ok advMap →
      (phase2 env base advMap (indexFeeds feeds) p.labelChecker).2 = .error e →
      processROLIEFeeds env p feeds =
        ((phase1 env base (indexFeeds feeds)).1 ++
           (phase2 env base advMap (indexFeeds feeds) p.labelChecker).1,
         .fatal e)) := by
  refine ⟨?_, ?_, ?_, ?_, ?_, ?_, ?_⟩
  · intro env base k f s e rest hurl hparse
    rcases hp : phase1 env base rest with ⟨ds, r⟩
    simp [phase1, hurl, hparse, hp]
  · intro env base k f s up rest hurl hparse hfr
    rcases hp : phase1 env base rest with ⟨ds, r⟩
    simp [phase1, hurl, hparse, hfr, hp]
  · intro env base k f s up e rest hurl hparse hfr hne
    rcases hp : phase1 env base rest with ⟨ds, r⟩
    simp [phase1, hurl, hparse, hfr, hne, hp]
  · intro env base advMap k f s up fb files rest lc hurl hfiles hparse hbase herr
    rcases hac : applyChecks ⟨env.resolveRef base up, tlpLabel f.label, []⟩
        (env.integrity files fb).classifyCalls with ⟨ck, cds⟩
    rcases hp : phase2 env base advMap rest (some ck) with ⟨ds, r⟩
    simp [phase2, hurl, hfiles, hparse, hbase, herr, hac, hp]
  · intro env base advMap k f s up fb files e rest lc hurl hfiles hparse hbase herr hne
    rcases hac : applyChecks ⟨env.resolveRef base up, tlpLabel f.label, []⟩
        (env.integrity files fb).classifyCalls with ⟨ck, cds⟩
    simp [phase2, hurl, hfiles, hparse, hbase, herr, hne, hac]
  · intro env p feeds base e hpmd h1
    rcases hp1 : phase1 env base (indexFeeds feeds) with ⟨ds1, r1⟩
    rw [hp1] at h1
    simp only at h1
    simp [processROLIEFeeds, hpmd, hp1, h1]
  · intro env p feeds base advMap e hpmd h1 h2
    rcases hp1 : phase1 env base (indexFeeds feeds) with ⟨ds1, r1⟩
    rw [hp1] at h1
    simp only at h1
    rcases hp2 : phase2 env base advMap (indexFeeds feeds) p.labelChecker with ⟨ds2, r2⟩
    rw [hp2] at h2
    simp only at h2
    simp [processROLIEFeeds, hpmd, hp1, h1, hp2, h2]

/-- Witness for C8 (amended): a single feed whose fetch fails with the
sentinel is skipped, the collaborator's (empty) diagnostics are forwarded,
and the loop continues with the (empty) remainder. -/
theorem C8_witness :
    phase1 cEnv "base" [((0, 0), wFeed)] =
      ((cEnv.rolieFeedEntries (cEnv.resolveRef "base" "feed.json")).diags ++
         (phase1 cEnv "base" []).1,
       (phase1 cEnv "base" []).2) :=
  C8_error_propagation.2.1 cEnv "base" (0, 0) wFeed "feed.json" "feed.json" []
    rfl rfl rfl

/-- Counterexample for C3: `serviceCheck` compares service-document HRefs
and provider-metadata feed URLs as raw strings with no resolution.  The
provider metadata lists the feed as the relative "feed.json", the service
document as the absolute "https://ex.com/feed.json"; resolving the
relative form against the base "https://ex.com/" yields exactly the
absolute form (they are the same resource), yet the reconciler reports
both sides as mismatches. -/
theorem C3_counterexample :
    c3Env.resolveRef "https://ex.com/" "feed.json" = "https://ex.com/feed.json" ∧
    serviceCheckCompare c3Doc c3Feeds =
      some [⟨.badROLIEservice, .error,
             "The ROLIE service document contains nonexistent feed entries: %v",
             ["https://ex.com/feed.json"]⟩,
            ⟨.badROLIEservice, .error,
             "The ROLIE service document is missing feed entries: %v",
             ["feed.json"]⟩] :=
  ⟨rfl, by decide⟩

/-- C3 (amended): the completeness audit does compare resolved absolute
URLs — each locally listed advisory URL is resolved against the feed's
base (itself resolved against the provider-metadata base) before the set
comparison, so a relative local form whose resolution matches an absolute
reference entry is not a mismatch — but `serviceCheck` compares
service-document feed URLs and provider-metadata feed URLs as raw strings
without any resolution, so there relative and absolute forms of the same
resource are counted as mismatches. -/
theorem C3_url_resolution :
    (∀ (env : Env) (base : String) (lcv : rolieLabelChecker)
        (advMap : List ((Nat × Nat) × List String)) (st st' : Phase3State)
        (k : Nat × Nat) (f : Feed) (s up : String) (files : List String),
      f.url = some s → lookupKey advMap k = some files →
      env.parseURL s = .ok up →
      phase3Step env base (some lcv) advMap st k f = some st' →
      (∀ r ∈ getAdvs lcv.advisories (tlpLabel f.label),
        ∃ a ∈ files, ∃ u, env.parseURL a = .ok u ∧
          makeAbsolute env (env.resolveRef base up) u = r) →
      tlpLabel f.label ∈ st'.hasSummary) ∧
    (∀ (doc : ROLIEServiceDocument) (feeds : List (List Feed))
        (ffeeds : List String),
      flattenFeedURLs feeds = some ffeeds →
      (serviceCheckCompare doc feeds = some [] ↔
        sameContentsSS (flattenServiceFeeds doc) ffeeds = ([], []))) := by
  constructor
  · intro env base lcv advMap st st' k f s up files hurl hfiles hparse hstep hres
    rcases hbc : buildCandidates env (env.resolveRef base up) s files with ⟨cand, ds⟩
    simp only [phase3Step, hurl, hfiles, hparse, hbc] at hstep
    have hc : containsAllKeys (getAdvs lcv.advisories (tlpLabel f.label)) cand = true := by
      refine (containsAllKeys_iff _ _).mpr ?_
      intro r hr
      obtain ⟨a, ha, u, hu, hx⟩ := hres r hr
      have hmem : r ∈ (buildCandidates env (env.resolveRef base up) s files).1 :=
        (mem_buildCandidates env (env.resolveRef base up) s files r).mpr
          ⟨a, ha, u, hu, hx⟩
      simpa [hbc] using hmem
    rw [if_pos hc] at hstep
    simp only [Option.some.injEq] at hstep
    subst hstep
    exact (mem_insertLabel_iff _ _ _).mpr (Or.inl rfl)
  · intro doc feeds ffeeds hff
    rcases hsc : sameContentsSS (flattenServiceFeeds doc) ffeeds with ⟨m1, m2⟩
    simp only [serviceCheckCompare, hff, hsc, Option.some.injEq, Prod.mk.injEq]
    constructor
    · intro hds
      obtain ⟨h1, h2⟩ := List.append_eq_nil.mp hds
      constructor
      · by_cases hm : m1.length ≠ 0
        · rw [if_pos hm] at h1
          cases h1
        · simpa using List.eq_nil_of_length_eq_zero (by omega)
      · by_cases hm : m2.length ≠ 0
        · rw [if_pos hm] at h2
          cases h2
        · simpa using List.eq_nil_of_length_eq_zero (by omega)
    · rintro ⟨rfl, rfl⟩
      simp

/-- Witness for C3 (amended): on the concrete relative/absolute pair the
reconciler is clean exactly when the raw string diff is empty. -/
theorem C3_witness :
    (serviceCheckCompare c3Doc c3Feeds = some [] ↔
      sameContentsSS (flattenServiceFeeds c3Doc) ["feed.json"] = ([], [])) :=
  C3_url_resolution.2 c3Doc c3Feeds ["feed.json"] rfl

/-- C10: `serviceCheck` dereferences each feed's URL pointer without a nil
check when flattening the provider-metadata feed URLs, so any feed
collection containing a feed with a nil URL makes it panic once execution
reaches that loop — for any service document; `processROLIEFeeds`, by
contrast, skips feeds with a nil URL in every phase. -/
theorem C10_nil_url_deref :
    (∀ (doc : ROLIEServiceDocument) (feeds : List (List Feed)),
      (∃ f ∈ feeds.flatten, f.url = none) →
      serviceCheckCompare doc feeds = none) ∧
    (∀ (env : Env) (p : Processor) (feeds : List (List Feed))
        (pu b status : String) (doc : ROLIEServiceDocument),
      env.parseURL p.pmdURL = .ok pu → env.baseURL pu = .ok b →
      env.getService (b ++ "service.json") = .response 200 status (.ok doc) →
      (∃ f ∈ feeds.flatten, f.url = none) →
      serviceCheck env p feeds = none) ∧
    (∀ (env : Env) (base : String) (k : Nat × Nat) (lbl : Option TLPLabel)
        (rest : List ((Nat × Nat) × Feed)),
      phase1 env base ((k, ⟨none, lbl⟩) :: rest) = phase1 env base rest) ∧
    (∀ (env : Env) (base : String) (advMap : List ((Nat × Nat) × List String))
        (k : Nat × Nat) (lbl : Option TLPLabel)
        (rest : List ((Nat × Nat) × Feed)) (lc : Option rolieLabelChecker),
      phase2 env base advMap ((k, ⟨none, lbl⟩) :: rest) lc =
        phase2 env base advMap rest lc) ∧
    (∀ (env : Env) (base : String) (lc : Option rolieLabelChecker)
        (advMap : List ((Nat × Nat) × List String)) (st : Phase3State)
        (k : Nat × Nat) (lbl : Option TLPLabel),
      phase3Step env base lc advMap st k ⟨none, lbl⟩ = some st) := by
  refine ⟨?_, ?_, ?_, ?_, ?_⟩
  · intro doc feeds h
    exact serviceCheckCompare_eq_none doc feeds h
  · intro env p feeds pu b status doc h1 h2 h3 hnil
    simp [serviceCheck, h1, h2, h3, serviceCheckCompare_eq_none doc feeds hnil]
  · intro env base k lbl rest
    rfl
  · intro env base advMap k lbl rest lc
    rfl
  · intro env base lc advMap st k lbl
    rfl

/-- Witness for C10: a single nil-URL feed panics the service-document
reconciler. -/
theorem C10_witness :
    serviceCheckCompare ⟨[]⟩ [[⟨none, none⟩]] = none :=
  C10_nil_url_deref.1 ⟨[]⟩ [[⟨none, none⟩]] (by decide)
